import Mathlib

/-!
A shallow embedding of `swallow.py` (the Swallow unit-test mini-framework):
the scoped stdout redirection class `stdout_to_devnull`, the per-test runner
produced by the `singletest` decorator, the arity validator
`takes_no_positional_arguments`, the suite class `Swallow`
(`__call__`, `expect`, `__iter__`, `run`), and the failure diagnostics
(`get_meaningful_expression`, `print_exception`).

Python callables under test are modelled by their observable behaviour
during one run: the lines they print to `sys.stdout` and the exception they
raise (if any).  Exception *types* are modelled by `ExcKind` (identity plus
`__name__`); `sys.exc_info()` is modelled by the raised `Exc` value.
The process output state (`sys.stdout` rebinding, the data written to each
stream, `sys.stderr`) is threaded explicitly through every operation.
-/

/-- A Python value bound in a frame's locals/globals, as consumed by the
expander: whether it is callable, its `__name__` attribute if it has one,
and its `repr`. -/
structure PyVal where
  isCallable : Bool
  dunderName : Option String
  reprStr : String
deriving DecidableEq, Repr

/-- The token classes distinguished at `swallow.py:46–56`: the initial
`ENCODING` token, `NAME` tokens, everything else. -/
inductive TokType where
  | encoding
  | nameTok
  | other
deriving DecidableEq, Repr

/-- One token produced by `tokenize`: its class and its text. -/
structure Tok where
  typ : TokType
  str : String
deriving DecidableEq, Repr

/-- A traceback frame as consumed by `get_meaningful_expression`: the
frame's `f_locals`/`f_globals`, the dedented error line that
`inspect.getsourcelines` + `textwrap.dedent` yield for it (`none` models
`getsourcelines` raising for unretrievable source), and the `tokenize`
output on that line (`none` models `tokenize` raising). -/
structure Frame where
  localVars : List (String × PyVal)
  globalVars : List (String × PyVal)
  srcLine : Option String
  toks : Option (List Tok)
deriving DecidableEq, Repr

/-- The exceptions the diagnostics code can let escape. -/
inductive PyErr where
  | osError
  | tokenizeError
  | valueError
  | attributeError
deriving DecidableEq, Repr

/-- `hay.index(needle)` on lists of characters: lowest index at which
`needle` occurs, `none` when absent (Python raises `ValueError`). -/
def subIndex (needle : List Char) : List Char → Option Nat
  | [] => if needle.isPrefixOf ([] : List Char) then some 0 else none
  | c :: t =>
    if needle.isPrefixOf (c :: t) then some 0
    else (subIndex needle t).map (· + 1)

/-- `hay.index(needle)` on strings. -/
def strIndex (hay needle : String) : Option Nat :=
  subIndex needle.data hay.data

/-- The per-value substitution at `swallow.py:62–68` (and its verbatim copy
at 71–77): a callable stays as the bare name; otherwise its `__name__` if
present, else its `repr`. -/
def substValue (nm : String) (v : PyVal) : String :=
  if v.isCallable then nm
  else match v.dunderName with
    | some n => n
    | none => v.reprStr

/-- The NAME-token handling at `swallow.py:56–79`: locals first, then
globals, unbound names kept as-is. -/
def expandName (nm : String) (lv gv : List (String × PyVal)) : String :=
  match List.lookup nm lv with
  | some v => substValue nm v
  | none =>
    match List.lookup nm gv with
    | some v => substValue nm v
    | none => nm

/-- The token loop of `get_meaningful_expression` (lines 46–81): skip the
`ENCODING` token; for every other token find it in the remaining error
line (`err_line.index` — absence raises `ValueError`), re-insert the
skipped whitespace, consume the line, and append the (possibly
substituted) token text. -/
def expandToks (lv gv : List (String × PyVal)) :
    List Tok → String → String → Except PyErr String
  | [], _, acc => .ok acc
  | t :: ts, line, acc =>
    if t.typ = .encoding then expandToks lv gv ts line acc
    else
      match strIndex line t.str with
      | none => .error .valueError
      | some i =>
        let acc1 := acc ++ String.mk (List.replicate i ' ')
        let rest := line.drop (i + t.str.length)
        let piece := if t.typ = .nameTok then expandName t.str lv gv else t.str
        expandToks lv gv ts rest (acc1 ++ piece)

/-- `get_meaningful_expression(tb)` (lines 17–83): walk to the innermost
frame (`while tb.tb_next` — on an empty traceback, i.e. Python `None`, the
attribute access raises), fetch and dedent the error line (raises when the
source is unavailable), tokenize it (may raise), and run the substitution
loop.  Returns `(backup, expanded)`. -/
def get_meaningful_expression (frames : List Frame) :
    Except PyErr (String × String) :=
  match frames.getLast? with
  | none => .error .attributeError
  | some fr =>
    match fr.srcLine with
    | none => .error .osError
    | some errLine =>
      match fr.toks with
      | none => .error .tokenizeError
      | some toks => do
        let expanded ← expandToks fr.localVars fr.globalVars toks errLine ""
        pure (errLine, expanded)

/-- A captured `(type, value, tb)` triple as handed to `print_exception`. -/
structure ExcInfo where
  kindName : String
  msg : String
  frames : List Frame
deriving DecidableEq, Repr

/-- `traceback.print_exception` output for a trimmed traceback (stderr
lines). -/
def formatTrace (kindName msg : String) (frames : List Frame) : List String :=
  "Traceback (most recent call last):" ::
    (frames.map (fun fr => "  " ++ fr.srcLine.getD "<source unavailable>")
      ++ [kindName ++ ": " ++ msg])

/-- `print_exception(type, value, tb, expand_errors)` (lines 85–97): drop
the first traceback entry (the framework's own `except` site), print the
stack trace, then — with no exception handling around it — run the
expander and print the expanded line when it differs.  Returns the stderr
lines emitted and the exception escaping the call, if any. -/
def print_exception (ei : ExcInfo) (expand_errors : Bool) :
    List String × Except PyErr Unit :=
  let tb := ei.frames.drop 1
  let out := formatTrace ei.kindName ei.msg tb
  if expand_errors then
    match get_meaningful_expression tb with
    | .error e => (out, .error e)
    | .ok (o, ex) =>
      if o ≠ ex then (out ++ ["    " ++ ex], .ok ()) else (out, .ok ())
  else (out, .ok ())

/-- The Diagnostic Expander as the spec words its failure policy, for
comparison with `print_exception`: "if source cannot be retrieved … or
tokenization fails, this component must degrade to no expansion … rather
than raising", the trace having been emitted either way. -/
def print_exception_specDegrade (ei : ExcInfo) (expand_errors : Bool) :
    List String × Except PyErr Unit :=
  let tb := ei.frames.drop 1
  let out := formatTrace ei.kindName ei.msg tb
  if expand_errors then
    match get_meaningful_expression tb with
    | .error _ => (out, .ok ())
    | .ok (o, ex) =>
      if o ≠ ex then (out ++ ["    " ++ ex], .ok ()) else (out, .ok ())
  else (out, .ok ())

/-- A Python exception class: identified by object identity (`id`), carrying
its `__name__`.  `type(e) != expected` in the source is identity comparison
of classes, modelled by equality of `ExcKind`. -/
structure ExcKind where
  id : Nat
  name : String
deriving DecidableEq, Repr

/-- A raised Python exception as captured by `sys.exc_info()`: its class,
its message, and its traceback — the chain of frames from the `try` that
caught it down to the raise site, consumed by `print_exception`. -/
structure Exc where
  kind : ExcKind
  msg : String
  frames : List Frame
deriving DecidableEq, Repr

/-- The `(type, value, tb)` view of a captured exception, as `Swallow.run`
unpacks `exc` at `swallow.py:343` before handing it to `print_exception`
(`type.__name__`, the message, the traceback). -/
def Exc.info (e : Exc) : ExcInfo :=
  ⟨e.kind.name, e.msg, e.frames⟩

/-- Observable behaviour of a zero-argument Python callable during one
invocation: what it prints to `sys.stdout`, then the exception it raises
(`none` = returns normally). -/
structure Behavior where
  output : List String
  raises : Option Exc
deriving DecidableEq, Repr

/-- `inspect.getargspec` applied to a value, as consumed by
`takes_no_positional_arguments`: `none` models the `TypeError` raised for
non-inspectable callables (builtins) and non-callables; `some (pos, defs)`
gives the number of positional parameter names and the number of defaults. -/
abbrev ArgSpec : Type := Option (Nat × Nat)

/-- A Python function value handed to `singletest` / `Swallow`: its name
(`__name__`, printed by `Swallow.run`), its `getargspec` view, and its
runtime behaviour. -/
structure Fn where
  name : String
  argspec : ArgSpec
  behavior : Behavior
deriving DecidableEq, Repr

/-- A candidate argument for `fn` / `setup` / `teardown`: either a callable
or a non-callable Python value (with its `repr`, used in the error text).
`inspect.getargspec` on a non-callable raises `TypeError`. -/
inductive Candidate where
  | callable (f : Fn)
  | notCallable (r : String)
deriving DecidableEq, Repr

/-- The process output state: `cur` is the stream object currently bound to
`sys.stdout` (streams are numbered; `open(os.devnull, 'w')` yields a fresh
number `nextId`), `log` records every line written together with the stream
it went to, and `errLog` records lines written to `sys.stderr`. -/
structure OutState where
  cur : Nat
  nextId : Nat
  log : List (Nat × String)
  errLog : List String
deriving DecidableEq, Repr

/-- Writing lines to whatever stream `sys.stdout` currently denotes. -/
def printTo (s : OutState) (lines : List String) : OutState :=
  { s with log := s.log ++ lines.map (fun l => (s.cur, l)) }

/-- Writing lines to `sys.stderr`. -/
def printErr (s : OutState) (lines : List String) : OutState :=
  { s with errLog := s.errLog ++ lines }

/-- The `stdout_to_devnull` context-manager object: `hide`, and the `stdout`
slot used to back up `sys.stdout` (initialised to `None` in `__init__`). -/
structure StdoutToDevnull where
  stdout : Option Nat
  hide : Bool
deriving DecidableEq, Repr

/-- `stdout_to_devnull.__init__`. -/
def StdoutToDevnull.init (hide : Bool) : StdoutToDevnull :=
  { stdout := none, hide := hide }

/-- `stdout_to_devnull.__enter__`: when hiding, back up `sys.stdout` and
rebind it to a freshly opened null-device stream. -/
def StdoutToDevnull.enter (c : StdoutToDevnull) (s : OutState) :
    StdoutToDevnull × OutState :=
  if c.hide then
    ({ c with stdout := some s.cur },
     { s with cur := s.nextId, nextId := s.nextId + 1 })
  else (c, s)

/-- `stdout_to_devnull.__exit__`: when hiding, restore the backed-up
`sys.stdout` (the close of the null stream does not affect this state). -/
def StdoutToDevnull.exitScope (c : StdoutToDevnull) (s : OutState) : OutState :=
  if c.hide then { s with cur := c.stdout.getD s.cur } else s

/-- `with stdout_to_devnull(hide): <inner>` around one callable invocation:
enter, let the inner computation print and possibly raise, and exit — the
`with` statement runs `__exit__` on normal return and on unwind alike.
Returns the exception propagating out of the block (if any). -/
def withDevnull (hide : Bool) (b : Behavior) (s : OutState) :
    Option Exc × OutState :=
  let c := StdoutToDevnull.init hide
  let (c1, s1) := c.enter s
  let s2 := printTo s1 b.output
  (b.raises, c1.exitScope s2)

/-- The inner computation run with no scope around it at all. -/
def runBare (b : Behavior) (s : OutState) : Option Exc × OutState :=
  (b.raises, printTo s b.output)

/-- `takes_no_positional_arguments`: `none` models the `TypeError` escape
hatch returning Python `None` ("impossible to know"); otherwise True iff
`len(default) - len(pos) == 0`.  Applied below also to absent (`None`)
setup/teardown, for which `getargspec` raises `TypeError` as well. -/
def takes_no_positional_arguments (spec : ArgSpec) : Option Bool :=
  match spec with
  | none => none
  | some (pos, defaults) => some (defaults == pos)

/-- `getargspec` view of an optional candidate argument (absent ⇒
`getargspec(None)` raises `TypeError` ⇒ `none`). -/
def candSpec : Option Candidate → ArgSpec
  | none => none
  | some (.notCallable _) => none
  | some (.callable f) => f.argspec

/-- One pass of the validation loop body in `decorating_function` for a
single `f` among `(fn, setup, teardown)`: raise `ValueError` if `f` is not
`None` and not callable, then raise `ValueError` if
`takes_no_positional_arguments(f) is False`. -/
def validateCandidate (c : Option Candidate) : Except String Unit :=
  match c with
  | some (.notCallable r) => .error (r ++ " isn't callable.")
  | _ =>
    if takes_no_positional_arguments (candSpec c) = some false then
      .error "isn't callable without positional arguments."
    else .ok ()

/-- The result tuple of `run`: `(state, reason, exc)` with
`state ∈ {True, False, None}`, `reason` an optional string, `exc` the
captured `sys.exc_info()`. -/
structure RunResult where
  state : Option Bool
  reason : Option String
  exc : Option Exc
deriving DecidableEq, Repr

/-- Which of the three user callables an invocation of `run` invoked, in
order. -/
inductive Step where
  | setupStep
  | bodyStep
  | teardownStep
deriving DecidableEq, Repr

/-- The test value built by a successful `singletest(...)` registration:
the wrapped function plus the captured decorator arguments. -/
structure TestCase where
  expected : Option ExcKind
  setup : Option Fn
  teardown : Option Fn
  run_if : Bool
  body : Fn
deriving DecidableEq, Repr

/-- The message built at `swallow.py:203` when an expected exception was not
raised (`expected.__name__` always exists for an exception class). -/
def noExcMsg (k : ExcKind) : String :=
  "No exception was raised (expected " ++ k.name ++ ")."

/-- The classification of the body's outcome at `swallow.py:191–207`,
starting from `state, reason, exc = True, None, None`: no exception but one
expected ⇒ `(False, message, None)`; an exception of exactly the expected
type (`type(e) != expected` false) ⇒ untouched `(True, None, None)`; any
other exception ⇒ `(False, None, exc_info)`. -/
def bodyVerdict (expected : Option ExcKind) (br : Option Exc) :
    Bool × Option String × Option Exc :=
  match br with
  | none =>
    match expected with
    | some k => (false, some (noExcMsg k), none)
    | none => (true, none, none)
  | some e =>
    if some e.kind = expected then (true, none, none)
    else (false, none, some e)

/-- The body-and-teardown part of `run` (lines 191–218): runs `fn()` under
the capture scope, classifies the outcome against `expected`, then runs
`teardown` (if any) under the scope, recording its failure only when no
`reason`/`exc` was recorded yet.  Also returns the steps invoked here. -/
def runBodyTeardown (tc : TestCase) (no_output : Bool) (s : OutState) :
    RunResult × OutState × List Step :=
  let (br, s1) := withDevnull no_output tc.body.behavior s
  let (state, reason, exc) := bodyVerdict tc.expected br
  match tc.teardown with
  | some td =>
    let (tr, s2) := withDevnull no_output td.behavior s1
    match tr with
    | some e2 =>
      if reason = none ∧ exc = none then
        (⟨some false, none, some e2⟩, s2, [.bodyStep, .teardownStep])
      else
        (⟨some state, reason, exc⟩, s2, [.bodyStep, .teardownStep])
    | none => (⟨some state, reason, exc⟩, s2, [.bodyStep, .teardownStep])
  | none => (⟨some state, reason, exc⟩, s1, [.bodyStep])

/-- `run(no_output)` as installed on the wrapper by `singletest`
(lines 176–218): the `run_if` gate, the setup phase with its early return,
then the body/teardown phase.  Besides the `(state, reason, exc)` tuple it
returns the final output state and the list of invoked steps. -/
def runCase (tc : TestCase) (no_output : Bool) (s : OutState) :
    RunResult × OutState × List Step :=
  if ¬ tc.run_if then (⟨none, none, none⟩, s, [])
  else
    match tc.setup with
    | some su =>
      let (sr, s1) := withDevnull no_output su.behavior s
      match sr with
      | some e => (⟨some false, none, some e⟩, s1, [.setupStep])
      | none =>
        let (r, s2, steps) := runBodyTeardown tc no_output s1
        (r, s2, .setupStep :: steps)
    | none => runBodyTeardown tc no_output s

/-- The `(state, reason, exc)` tuple of the body/teardown phase computed
without the output state (proved equal to `runBodyTeardown`'s below). -/
def btPure (tc : TestCase) : RunResult :=
  let (state, reason, exc) := bodyVerdict tc.expected tc.body.behavior.raises
  match tc.teardown with
  | some td =>
    match td.behavior.raises with
    | some e2 =>
      if reason = none ∧ exc = none then ⟨some false, none, some e2⟩
      else ⟨some state, reason, exc⟩
    | none => ⟨some state, reason, exc⟩
  | none => ⟨some state, reason, exc⟩

/-- The `(state, reason, exc)` tuple of `run` computed without the output
state (proved equal to `runCase`'s below). -/
def runPure (tc : TestCase) : RunResult :=
  if ¬ tc.run_if then ⟨none, none, none⟩
  else
    match tc.setup with
    | some su =>
      match su.behavior.raises with
      | some e => ⟨some false, none, some e⟩
      | none => btPure tc
    | none => btPure tc

/-- The stdout lines one invocation of `run` lets the invoked callables
write, in order (proved below: with `no_output = False` they all land on
the stream bound at entry). -/
def caseOutputs (tc : TestCase) : List String :=
  if ¬ tc.run_if then []
  else
    let tdOut := (tc.teardown.map (fun td => td.behavior.output)).getD []
    match tc.setup with
    | some su =>
      match su.behavior.raises with
      | some _ => su.behavior.output
      | none => su.behavior.output ++ tc.body.behavior.output ++ tdOut
    | none => tc.body.behavior.output ++ tdOut

/-- `singletest(expected, setup, teardown, run_if)` applied to `fn`
(`decorating_function`): validate `fn`, `setup`, `teardown` in that order,
then produce the wrapped test.  A `ValueError` is raised here, at
registration time, before any `run` exists. -/
def singletest (expected : Option ExcKind) (setup teardown : Option Candidate)
    (run_if : Bool) (fn : Candidate) : Except String TestCase :=
  match validateCandidate (some fn) with
  | .error e => .error e
  | .ok _ =>
  match validateCandidate setup with
  | .error e => .error e
  | .ok _ =>
  match validateCandidate teardown with
  | .error e => .error e
  | .ok _ =>
  match fn with
  | .callable f =>
    .ok { expected := expected
          setup := match setup with
                   | some (.callable g) => some g
                   | _ => none
          teardown := match teardown with
                      | some (.callable g) => some g
                      | _ => none
          run_if := run_if
          body := f }
  | .notCallable r => .error (r ++ " isn't callable.")

/-- The `Swallow` suite object: the ordered list of registered tests plus
the suite-level default `setup`/`teardown` passed to `__init__`. -/
structure Swallow where
  tests : List TestCase
  setup : Option Candidate
  teardown : Option Candidate

/-- `Swallow(setup, teardown)`. -/
def Swallow.init (setup teardown : Option Candidate) : Swallow :=
  { tests := [], setup := setup, teardown := teardown }

/-- The argument of `Swallow.__call__`: either a callable (the decorated
function itself, in the `@t` form) or a non-callable value used as the run
condition (the `@t(cond)` form); for the latter only its truthiness
matters. -/
inductive CallArg where
  | callableArg (f : Fn)
  | condArg (b : Bool)

/-- What `Swallow.__call__` returns: in the callable case the function is
registered on the spot and the wrapped test handed back; in the condition
case a decorator closed over `run_if` is handed back. -/
inductive CallResult where
  | registered (sw : Swallow) (t : TestCase)
  | decorator (run_if : Bool)

/-- `Swallow.__call__(run_if)` (lines 267–297): the "dirty hack" — when the
argument is callable it IS the test body, registered via
`singletest(setup=self.setup, teardown=self.teardown)` whose `run_if`
keeps its default `True`; otherwise a decorator carrying `run_if` is
returned. -/
def Swallow.call (sw : Swallow) (arg : CallArg) : Except String CallResult :=
  match arg with
  | .callableArg f =>
    match singletest none sw.setup sw.teardown true (.callable f) with
    | .error e => .error e
    | .ok t => .ok (.registered { sw with tests := sw.tests ++ [t] } t)
  | .condArg b => .ok (.decorator b)

/-- Applying the decorator returned by `Swallow.__call__(run_if)` (the inner
`wrapper`, lines 292–295) to the decorated function. -/
def Swallow.callWrapper (sw : Swallow) (run_if : Bool) (fn : Candidate) :
    Except String (Swallow × TestCase) :=
  match singletest none sw.setup sw.teardown run_if fn with
  | .error e => .error e
  | .ok t => .ok ({ sw with tests := sw.tests ++ [t] }, t)

/-- `Swallow.expect(expected, run_if)` applied to the decorated function
(lines 299–312). -/
def Swallow.expect (sw : Swallow) (expected : ExcKind) (run_if : Bool)
    (fn : Candidate) : Except String (Swallow × TestCase) :=
  match singletest (some expected) sw.setup sw.teardown run_if fn with
  | .error e => .error e
  | .ok t => .ok ({ sw with tests := sw.tests ++ [t] }, t)

/-- `Swallow.__iter__` (lines 314–319): yield `t.run(False)` for each
registered test in order — note the literal `False` passed as `no_output`.
Returns the yielded tuples in order and the final output state. -/
def swallowIter : List TestCase → OutState → List RunResult × OutState
  | [], s => ([], s)
  | t :: ts, s =>
    let (r, s1, _) := runCase t false s
    let (rs, s2) := swallowIter ts s1
    (r :: rs, s2)

/-- The loop of `Swallow.run` (lines 338–357), carrying the three counters.
`print('Testing %s: ' % t.__name__, end='')` and the verdict that follows
on the same line are modelled as successive stdout writes.  The Python
`if state:` / `elif state is None:` / `else:` triage is truthiness on
`True`/`None`/`False`, and `if reason:` is string truthiness.  The
reason-less failure path calls `print_exception(type, value, tb,
expand_errors)` with no handler around it: its stderr lines are written,
and if it raises, the exception escapes the loop — `run` then returns no
counters at all (the `.error` carries the escaped exception and the output
state at that point). -/
def swallowRunLoop (no_output expand_errors : Bool) :
    List TestCase → OutState → Nat → Nat → Nat →
      Except (PyErr × OutState) ((Nat × Nat × Nat) × OutState)
  | [], s, passed, not_run, failed => .ok ((passed, not_run, failed), s)
  | t :: ts, s, passed, not_run, failed =>
    let s1 := printTo s ["Testing " ++ t.body.name ++ ": "]
    let (r, s2, _) := runCase t no_output s1
    match r.state with
    | some true =>
      swallowRunLoop no_output expand_errors ts (printTo s2 ["PASS"])
        (passed + 1) not_run failed
    | none =>
      swallowRunLoop no_output expand_errors ts (printTo s2 ["NOT RUN"])
        passed (not_run + 1) failed
    | some false =>
      let s3 := printTo s2 ["FAIL"]
      if r.reason.getD "" ≠ "" then
        swallowRunLoop no_output expand_errors ts
          (printErr s3 [r.reason.getD ""]) passed not_run (failed + 1)
      else
        match r.exc with
        | some e =>
          let (lines, res) := print_exception e.info expand_errors
          let s4 := printErr s3 lines
          match res with
          | .ok _ =>
            swallowRunLoop no_output expand_errors ts s4 passed not_run (failed + 1)
          | .error err => .error (err, s4)
        | none =>
          -- unreachable: a `False` state always carries a reason or an exc
          -- (the invariant of lines 176–218, proved below for `runCase`)
          swallowRunLoop no_output expand_errors ts s3 passed not_run (failed + 1)

/-- `Swallow.run` (lines 321–361): run every test in registration order,
tally `passed`/`not_run`/`failed`, print the per-test lines and the summary
line, and return the counters — unless a failing test's diagnostic
printing raised, in which case the exception propagates out of `run` (and
out of the `@timer` wrapper, which then prints nothing) and no counters
are returned.  The wrapper otherwise only adds an `Executed in … seconds.`
print and returns the same value; wall-clock time is outside this model. -/
def swallowRun (tests : List TestCase) (no_output expand_errors : Bool)
    (s : OutState) : Except (PyErr × OutState) ((Nat × Nat × Nat) × OutState) :=
  match swallowRunLoop no_output expand_errors tests s 0 0 0 with
  | .error e => .error e
  | .ok ((passed, not_run, failed), s1) =>
    let summary := toString tests.length ++ " tests, " ++ toString passed ++
      " PASS, " ++ toString not_run ++ " NOT RUN, " ++ toString failed ++ " FAIL"
    .ok ((passed, not_run, failed), printTo s1 ["", summary])

/-- The exception with which a suite run aborted, if it did. -/
def runAborted :
    Except (PyErr × OutState) ((Nat × Nat × Nat) × OutState) → Option PyErr
  | .error (e, _) => some e
  | .ok _ => none

/-- The traversal as the spec words it — "runs every case with output
captured": `__iter__` passing `True` for `no_output`.  For comparison with
`swallowIter`, which passes the literal `False`. -/
def swallowIterSpecCaptured : List TestCase → OutState → List RunResult × OutState
  | [], s => ([], s)
  | t :: ts, s =>
    let (r, s1, _) := runCase t true s
    let (rs, s2) := swallowIterSpecCaptured ts s1
    (r :: rs, s2)

/-- The `(state, reason, exc)` tuple of one test, which depends only on the
test (proved below: the threaded output state never influences it). -/
def caseResult (t : TestCase) (no_output : Bool) : RunResult :=
  (runCase t no_output ⟨0, 0, [], []⟩).1

/-- Well-formedness of a `getargspec` result: a Python function never has
more defaults than positional parameters. -/
def specWF (sp : ArgSpec) : Prop :=
  ∀ p d, sp = some (p, d) → d ≤ p

/-- A candidate the registration loop rejects: not callable, or its
inspectable signature requires at least one positional argument without a
default. -/
def candBad (c : Option Candidate) : Prop :=
  (∃ r, c = some (.notCallable r)) ∨ (∃ p d, candSpec c = some (p, d) ∧ d < p)

/-- Concrete fixtures used by witnesses and counterexamples. -/
def frameX : Frame :=
  ⟨[("x", ⟨false, none, "3"⟩)], [], some "assert x == 4",
   some [⟨.encoding, "utf-8"⟩, ⟨.nameTok, "assert"⟩, ⟨.nameTok, "x"⟩,
         ⟨.other, "=="⟩, ⟨.other, "4"⟩, ⟨.other, ""⟩]⟩

/-- A frame whose source `inspect.getsourcelines` cannot retrieve. -/
def frameNoSource : Frame := ⟨[], [], none, none⟩

/-- A raise-site frame whose source is retrievable and tokenizes; its
expansion equals the original line (no names to substitute), so the
expander succeeds quietly on it. -/
def frameDiv : Frame :=
  ⟨[], [], some "1 // 0",
   some [⟨.encoding, "utf-8"⟩, ⟨.other, "1"⟩, ⟨.other, "//"⟩,
         ⟨.other, "0"⟩, ⟨.other, ""⟩]⟩

def eiNoSource : ExcInfo := ⟨"AssertionError", "boom", [frameX, frameNoSource]⟩

def kindZDE : ExcKind := ⟨0, "ZeroDivisionError"⟩

def kindTE : ExcKind := ⟨1, "TypeError"⟩

def excZde : Exc := ⟨kindZDE, "division by zero", [frameX, frameDiv]⟩

def excSu : Exc := ⟨kindTE, "setup boom", [frameX, frameDiv]⟩

def excTd : Exc := ⟨kindTE, "teardown boom", [frameX, frameDiv]⟩

/-- An exception whose raise-site frame has no retrievable source (a body
defined through `exec`): the expander raises on its traceback. -/
def excNoSrc : Exc := ⟨kindZDE, "division by zero", [frameX, frameNoSource]⟩

def fnOk : Fn := ⟨"ok", some (0, 0), ⟨[], none⟩⟩

def fnZde : Fn := ⟨"zde", some (0, 0), ⟨[], some excZde⟩⟩

def fnPrints : Fn := ⟨"printer", some (0, 0), ⟨["hello"], none⟩⟩

def fnSuBad : Fn := ⟨"su", some (0, 0), ⟨[], some excSu⟩⟩

def fnTdBad : Fn := ⟨"td", some (0, 0), ⟨[], some excTd⟩⟩

def fnNoSrc : Fn := ⟨"dyn", some (0, 0), ⟨[], some excNoSrc⟩⟩

def st0 : OutState := ⟨0, 1, [], []⟩

def tcExpectZde : TestCase := ⟨some kindZDE, none, none, true, fnZde⟩

def tcExpectMiss : TestCase := ⟨some kindTE, none, none, true, fnZde⟩

def tcExpectNoRaise : TestCase := ⟨some kindTE, none, none, true, fnOk⟩

def tcSetupFails : TestCase := ⟨none, some fnSuBad, none, true, fnZde⟩

def tcBodyAndTdFail : TestCase := ⟨none, none, some fnTdBad, true, fnZde⟩

def tcOnlyTdFails : TestCase := ⟨none, none, some fnTdBad, true, fnOk⟩

def tcPrinter : TestCase := ⟨none, none, none, true, fnPrints⟩

/-- A failing test whose traceback the expander handles (suite run
completes). -/
def tcDiagOk : TestCase := ⟨none, none, none, true, fnZde⟩

/-- A failing test whose traceback the expander cannot source (suite run
aborts). -/
def tcDiagBad : TestCase := ⟨none, none, none, true, fnNoSrc⟩

theorem withDevnull_fst (hide : Bool) (b : Behavior) (s : OutState) :
    (withDevnull hide b s).1 = b.raises := by
  cases hide <;> rfl

theorem withDevnull_cur (hide : Bool) (b : Behavior) (s : OutState) :
    (withDevnull hide b s).2.cur = s.cur := by
  cases hide <;> rfl

theorem withDevnull_false_eq (b : Behavior) (s : OutState) :
    withDevnull false b s = (b.raises, printTo s b.output) := rfl

/-- C9: for every `hide` and every inner computation, the
`stdout_to_devnull` scope leaves `sys.stdout` bound to the same stream as
before entry on every exit path — the `raises` component of the behaviour
is arbitrary, covering normal return and unwind alike — and with
`hide = False` the scope is exactly the bare computation. -/
theorem stdout_restored_and_passthrough (hide : Bool) (b : Behavior) (s : OutState) :
    (withDevnull hide b s).2.cur = s.cur ∧ withDevnull false b s = runBare b s := by
  exact ⟨withDevnull_cur hide b s, rfl⟩

/-- C3: when `run_if` holds and the setup raises, `run` returns
`(False, None, exc)` with `exc` the setup's captured error and `reason`
absent, and only the setup step was invoked — neither the body nor the
teardown runs. -/
theorem run_setup_failure_skips_body_teardown (tc : TestCase) (no : Bool)
    (s : OutState) (su : Fn) (e : Exc) (hri : tc.run_if = true)
    (hsu : tc.setup = some su) (hre : su.behavior.raises = some e) :
    (runCase tc no s).1 = ⟨some false, none, some e⟩ ∧
    (runCase tc no s).2.2 = [Step.setupStep] := by
  obtain ⟨exp, su0, td, ri, bd⟩ := tc
  simp only at hsu hri
  subst hsu
  subst hri
  rcases hw : withDevnull no su.behavior s with ⟨sr, s1⟩
  have hsr : sr = some e := by
    have h := withDevnull_fst no su.behavior s
    rw [hw, hre] at h
    exact h
  subst hsr
  simp [runCase, hw]

/-- Witness for C3 at a concrete test case whose setup raises. -/
theorem run_setup_failure_skips_body_teardown_witness :
    (runCase tcSetupFails true st0).1 = ⟨some false, none, some excSu⟩ ∧
    (runCase tcSetupFails true st0).2.2 = [Step.setupStep] :=
  run_setup_failure_skips_body_teardown tcSetupFails true st0 fnSuBad excSu
    rfl rfl rfl

theorem runBodyTeardown_fst (tc : TestCase) (no : Bool) (s : OutState) :
    (runBodyTeardown tc no s).1 = btPure tc := by
  rcases hb : withDevnull no tc.body.behavior s with ⟨br, s1⟩
  have hbr : br = tc.body.behavior.raises := by
    have h := withDevnull_fst no tc.body.behavior s
    rw [hb] at h
    exact h
  subst hbr
  rcases hv : bodyVerdict tc.expected tc.body.behavior.raises with ⟨st, rsn, exc⟩
  rcases htd : tc.teardown with _ | tf
  · simp [runBodyTeardown, btPure, hb, hv, htd]
  · rcases ht : withDevnull no tf.behavior s1 with ⟨tr, s2⟩
    have htr : tr = tf.behavior.raises := by
      have h := withDevnull_fst no tf.behavior s1
      rw [ht] at h
      exact h
    subst htr
    rcases hr2 : tf.behavior.raises with _ | e2 <;>
      [simp [runBodyTeardown, btPure, hb, hv, htd, ht, hr2];
       (simp only [runBodyTeardown, btPure, hb, hv, htd, ht, hr2]
        split <;> rfl)]

theorem runCase_fst (tc : TestCase) (no : Bool) (s : OutState) :
    (runCase tc no s).1 = runPure tc := by
  rcases hri : tc.run_if
  · simp [runCase, runPure, hri]
  · rcases hsu : tc.setup with _ | sf
    · simp only [runCase, runPure, hri, hsu, Bool.not_true, not_false_iff]
      simp [runBodyTeardown_fst]
    · rcases hw : withDevnull no sf.behavior s with ⟨sr, s1⟩
      have hsr : sr = sf.behavior.raises := by
        have h := withDevnull_fst no sf.behavior s
        rw [hw] at h
        exact h
      subst hsr
      rcases hr : sf.behavior.raises with _ | e <;>
        rw [hr] at hw <;>
        simp [runCase, runPure, hri, hsu, hw, hr, runBodyTeardown_fst]

theorem caseResult_eq (tc : TestCase) (no : Bool) : caseResult tc no = runPure tc :=
  runCase_fst tc no ⟨0, 0, [], []⟩

theorem btPure_state_not_none (tc : TestCase) :
    (btPure tc).state ≠ none ∧
    ((btPure tc).state = some false →
      ((btPure tc).reason = none ∧ (btPure tc).exc ≠ none) ∨
      ((btPure tc).reason ≠ none ∧ (btPure tc).exc = none)) := by
  obtain ⟨exp, su, td, ri, bd⟩ := tc
  obtain ⟨bn, bsp, bout, brs⟩ := bd
  rcases td with _ | ⟨tn, tsp, tout, trs⟩
  · rcases brs with _ | e
    · rcases exp with _ | k <;> simp [btPure, bodyVerdict, noExcMsg]
    · rcases exp with _ | k
      · simp [btPure, bodyVerdict]
      · by_cases he : e.kind = k <;> simp [btPure, bodyVerdict, he]
  · rcases brs with _ | e
    · rcases exp with _ | k <;> rcases trs with _ | e2 <;>
        simp [btPure, bodyVerdict, noExcMsg]
    · rcases exp with _ | k
      · rcases trs with _ | e2 <;> simp [btPure, bodyVerdict]
      · by_cases he : e.kind = k <;> rcases trs with _ | e2 <;>
          simp [btPure, bodyVerdict, he]

/-- C6: the `RunOutcome` invariant — whenever `run` returns `Failed`
(`state = False`), exactly one of `reason` and `exc` is set; whenever it
returns `Skipped` (`state = None`), both are absent. -/
theorem run_failed_exactly_one_skipped_none (tc : TestCase) (no : Bool) (s : OutState) :
    ((runCase tc no s).1.state = some false →
      (((runCase tc no s).1.reason = none ∧ (runCase tc no s).1.exc ≠ none) ∨
       ((runCase tc no s).1.reason ≠ none ∧ (runCase tc no s).1.exc = none))) ∧
    ((runCase tc no s).1.state = none →
      (runCase tc no s).1.reason = none ∧ (runCase tc no s).1.exc = none) := by
  rw [runCase_fst]
  rcases hri : tc.run_if
  · simp [runPure, hri]
  · rcases hsu : tc.setup with _ | sf
    · simp only [runPure, hri, hsu, Bool.not_true, not_false_iff, if_neg]
      obtain ⟨h1, h2⟩ := btPure_state_not_none tc
      exact ⟨h2, fun h => absurd h h1⟩
    · rcases hr : sf.behavior.raises with _ | e
      · simp only [runPure, hri, hsu, hr, Bool.not_true, not_false_iff, if_neg]
        obtain ⟨h1, h2⟩ := btPure_state_not_none tc
        exact ⟨h2, fun h => absurd h h1⟩
      · simp [runPure, hri, hsu, hr]

/-- Witness for C6 at a concrete failing case (wrong exception kind). -/
theorem run_failed_exactly_one_skipped_none_witness :
    (((runCase tcExpectMiss true st0).1.state = some false →
      (((runCase tcExpectMiss true st0).1.reason = none ∧
        (runCase tcExpectMiss true st0).1.exc ≠ none) ∨
       ((runCase tcExpectMiss true st0).1.reason ≠ none ∧
        (runCase tcExpectMiss true st0).1.exc = none))) ∧
     ((runCase tcExpectMiss true st0).1.state = none →
      (runCase tcExpectMiss true st0).1.reason = none ∧
      (runCase tcExpectMiss true st0).1.exc = none)) :=
  run_failed_exactly_one_skipped_none tcExpectMiss true st0

theorem bodyVerdict_true (exp : Option ExcKind) (br : Option Exc)
    (h : (bodyVerdict exp br).1 = true) :
    (bodyVerdict exp br).2.1 = none ∧ (bodyVerdict exp br).2.2 = none := by
  rcases br with _ | e
  · rcases exp with _ | k <;> simp_all [bodyVerdict]
  · rcases exp with _ | k
    · simp_all [bodyVerdict]
    · by_cases he : e.kind = k <;> simp_all [bodyVerdict]

theorem bodyVerdict_false (exp : Option ExcKind) (br : Option Exc)
    (h : (bodyVerdict exp br).1 = false) :
    ¬ ((bodyVerdict exp br).2.1 = none ∧ (bodyVerdict exp br).2.2 = none) := by
  rcases br with _ | e
  · rcases exp with _ | k <;> simp_all [bodyVerdict]
  · rcases exp with _ | k
    · simp_all [bodyVerdict]
    · by_cases he : e.kind = k <;> simp_all [bodyVerdict]

/-- C1: with `run_if` true, `expected = K` and a non-failing (or absent)
setup: a body raising exactly kind `K` makes the body step successful —
with a non-failing (or absent) teardown, `run` returns
`(True, None, None)`; a body raising any other kind yields
`(False, None, exc)` with `exc` that error, whatever the teardown does; a
body raising nothing yields `state = False`, no `exc`, and a `reason`
message containing `K`'s name. -/
theorem run_expected_kind_classification (tc : TestCase) (no : Bool)
    (s : OutState) (k : ExcKind) (hri : tc.run_if = true)
    (hexp : tc.expected = some k)
    (hsu : tc.setup = none ∨ ∃ su, tc.setup = some su ∧ su.behavior.raises = none) :
    (∀ e, tc.body.behavior.raises = some e → e.kind = k →
      (tc.teardown = none ∨ ∃ td, tc.teardown = some td ∧ td.behavior.raises = none) →
      (runCase tc no s).1 = ⟨some true, none, none⟩) ∧
    (∀ e, tc.body.behavior.raises = some e → e.kind ≠ k →
      (runCase tc no s).1 = ⟨some false, none, some e⟩) ∧
    (tc.body.behavior.raises = none →
      (runCase tc no s).1.state = some false ∧
      (runCase tc no s).1.exc = none ∧
      ∃ p q, (runCase tc no s).1.reason = some (p ++ k.name ++ q)) := by
  rw [runCase_fst]
  have hpure : runPure tc = btPure tc := by
    rcases hsu with h | ⟨su, h, hre⟩
    · simp [runPure, hri, h]
    · simp [runPure, hri, h, hre]
  rw [hpure]
  refine ⟨?_, ?_, ?_⟩
  · intro e hbe hek htd
    rcases htd with h | ⟨td, h, hre2⟩
    · simp [btPure, bodyVerdict, hbe, hek, hexp, h]
    · simp [btPure, bodyVerdict, hbe, hek, hexp, h, hre2]
  · intro e hbe hek
    rcases htd2 : tc.teardown with _ | td
    · simp [btPure, bodyVerdict, hbe, hexp, hek, htd2]
    · rcases hr2 : td.behavior.raises with _ | e2 <;>
        simp [btPure, bodyVerdict, hbe, hexp, hek, htd2, hr2]
  · intro hbe
    refine ⟨?_, ?_, "No exception was raised (expected ", ").", ?_⟩ <;>
    · rcases htd2 : tc.teardown with _ | td
      · simp [btPure, bodyVerdict, hbe, hexp, htd2, noExcMsg]
      · rcases hr2 : td.behavior.raises with _ | e2 <;>
          simp [btPure, bodyVerdict, hbe, hexp, htd2, hr2, noExcMsg]

/-- Witness for C1: a test expecting `ZeroDivisionError` whose body raises
exactly that kind passes. -/
theorem run_expected_kind_classification_witness :
    (runCase tcExpectZde true st0).1 = ⟨some true, none, none⟩ :=
  (run_expected_kind_classification tcExpectZde true st0 kindZDE rfl rfl
    (Or.inl rfl)).1 excZde rfl rfl (Or.inl rfl)

/-- C2: when the teardown raises during `run`, its error is recorded only
if the teardown ran and no failure came from the setup or body: if the
run without the teardown would have passed, `run` returns
`(False, None, exc)` with the teardown's error; if it would have failed,
`run` returns exactly that earlier result — the teardown error is
suppressed (first-failure-wins). -/
theorem run_teardown_first_failure_wins (tc : TestCase) (no : Bool)
    (s : OutState) (td : Fn) (e : Exc) (hri : tc.run_if = true)
    (htd : tc.teardown = some td) (hre : td.behavior.raises = some e) :
    ((runCase { tc with teardown := none } no s).1.state = some true →
      (runCase tc no s).1 = ⟨some false, none, some e⟩) ∧
    ((runCase { tc with teardown := none } no s).1.state = some false →
      (runCase tc no s).1 = (runCase { tc with teardown := none } no s).1) := by
  simp only [runCase_fst]
  obtain ⟨exp, su, td0, ri, bd⟩ := tc
  simp only at htd hri
  subst htd
  subst hri
  rcases hv : bodyVerdict exp bd.behavior.raises with ⟨st, rsn, exc⟩
  have hbt : btPure ⟨exp, su, some td, true, bd⟩ =
      if rsn = none ∧ exc = none then ⟨some false, none, some e⟩
      else ⟨some st, rsn, exc⟩ := by
    simp [btPure, hv, hre]
  have hbt0 : btPure ⟨exp, su, none, true, bd⟩ = ⟨some st, rsn, exc⟩ := by
    simp [btPure, hv]
  rcases su with _ | sf
  · constructor
    · intro h1
      simp only [runPure, btPure, hv] at h1
      simp at h1
      obtain ⟨hr1, hr2⟩ := bodyVerdict_true exp bd.behavior.raises (by rw [hv]; exact h1)
      rw [hv] at hr1 hr2
      have hrn : rsn = none := hr1
      have hrx : exc = none := hr2
      simp [runPure, hbt, hrn, hrx]
    · intro h1
      simp only [runPure, btPure, hv] at h1
      simp at h1
      have hne := bodyVerdict_false exp bd.behavior.raises (by rw [hv]; exact h1)
      rw [hv] at hne
      have hne' : ¬ (rsn = none ∧ exc = none) := hne
      simp [runPure, hbt, hbt0, hne']
  · rcases hsr : sf.behavior.raises with _ | se
    · constructor
      · intro h1
        simp only [runPure, btPure, hsr, hv] at h1
        simp [hsr] at h1
        obtain ⟨hr1, hr2⟩ := bodyVerdict_true exp bd.behavior.raises (by rw [hv]; exact h1)
        rw [hv] at hr1 hr2
        have hrn : rsn = none := hr1
        have hrx : exc = none := hr2
        simp [runPure, hsr, hbt, hrn, hrx]
      · intro h1
        simp only [runPure, btPure, hsr, hv] at h1
        simp [hsr] at h1
        have hne := bodyVerdict_false exp bd.behavior.raises (by rw [hv]; exact h1)
        rw [hv] at hne
        have hne' : ¬ (rsn = none ∧ exc = none) := hne
        simp [runPure, hsr, hbt, hbt0, hne']
    · constructor
      · intro h1
        simp [runPure, hsr] at h1
      · intro h1
        simp [runPure, hsr]

/-- Witness for C2 at a concrete case whose body and teardown both raise:
the body's error wins. -/
theorem run_teardown_first_failure_wins_witness :
    (((runCase { tcBodyAndTdFail with teardown := none } true st0).1.state = some true →
       (runCase tcBodyAndTdFail true st0).1 = ⟨some false, none, some excTd⟩) ∧
     ((runCase { tcBodyAndTdFail with teardown := none } true st0).1.state = some false →
       (runCase tcBodyAndTdFail true st0).1 =
         (runCase { tcBodyAndTdFail with teardown := none } true st0).1)) :=
  run_teardown_first_failure_wins tcBodyAndTdFail true st0 fnTdBad excTd rfl rfl rfl

theorem swallowRunLoop_counts (no exp : Bool) (ts : List TestCase) :
    ∀ (s : OutState) (p n f p2 n2 f2 : Nat) (s2 : OutState),
      swallowRunLoop no exp ts s p n f = .ok ((p2, n2, f2), s2) →
      p2 = p + ts.countP (fun t => (caseResult t no).state == some true) ∧
      n2 = n + ts.countP (fun t => (caseResult t no).state == none) ∧
      f2 = f + ts.countP (fun t => (caseResult t no).state == some false) := by
  induction ts with
  | nil =>
    intro s p n f p2 n2 f2 s2 h
    simp [swallowRunLoop] at h
    obtain ⟨⟨hp, hn, hf⟩, _⟩ := h
    simp [hp, hn, hf]
  | cons t ts ih =>
    intro s p n f p2 n2 f2 s2 h
    rcases hrc : runCase t no (printTo s ["Testing " ++ t.body.name ++ ": "])
      with ⟨r, s3, tr⟩
    have hres : r = runPure t := by
      have hh := runCase_fst t no (printTo s ["Testing " ++ t.body.name ++ ": "])
      rw [hrc] at hh
      exact hh
    subst hres
    have hcr : caseResult t no = runPure t := caseResult_eq t no
    rcases hst : (runPure t).state with _ | b
    · simp only [swallowRunLoop, hrc, hst] at h
      obtain ⟨h1, h2, h3⟩ := ih _ _ _ _ _ _ _ _ h
      simp [List.countP_cons, hcr, hst, h1, h2, h3]
      omega
    · cases b
      · simp only [swallowRunLoop, hrc, hst] at h
        by_cases hrsn : (runPure t).reason.getD "" ≠ ""
        · rw [if_pos hrsn] at h
          obtain ⟨h1, h2, h3⟩ := ih _ _ _ _ _ _ _ _ h
          simp [List.countP_cons, hcr, hst, h1, h2, h3]
          omega
        · rw [if_neg hrsn] at h
          rcases hexc : (runPure t).exc with _ | e
          · simp only [hexc] at h
            obtain ⟨h1, h2, h3⟩ := ih _ _ _ _ _ _ _ _ h
            simp [List.countP_cons, hcr, hst, h1, h2, h3]
            omega
          · simp only [hexc] at h
            rcases hpe : (print_exception e.info exp).2 with err | u
            · simp only [hpe] at h
              simp at h
            · simp only [hpe] at h
              obtain ⟨h1, h2, h3⟩ := ih _ _ _ _ _ _ _ _ h
              simp [List.countP_cons, hcr, hst, h1, h2, h3]
              omega
      · simp only [swallowRunLoop, hrc, hst] at h
        obtain ⟨h1, h2, h3⟩ := ih _ _ _ _ _ _ _ _ h
        simp [List.countP_cons, hcr, hst, h1, h2, h3]
        omega

theorem caseState_trichotomy_sum (no : Bool) (ts : List TestCase) :
    ts.countP (fun t => (caseResult t no).state == some true) +
    ts.countP (fun t => (caseResult t no).state == none) +
    ts.countP (fun t => (caseResult t no).state == some false) = ts.length := by
  induction ts with
  | nil => simp
  | cons t ts ih =>
    rcases hst : (caseResult t no).state with _ | b
    · simp [List.countP_cons, hst]
      omega
    · cases b <;>
      · simp [List.countP_cons, hst]
        omega

/-- C7 counterexample: a suite whose single failing test raised from a
frame with unretrievable source makes `print_exception` raise inside the
report loop of `Swallow.run`, so `run` aborts and returns no counters at
all — refuting the claim that it always returns counts summing to the
number of registered cases. -/
theorem swallow_run_counts_counterexample :
    runAborted (swallowRun [tcDiagBad] true true st0) = some .osError ∧
    (∀ c : (Nat × Nat × Nat) × OutState,
        swallowRun [tcDiagBad] true true st0 ≠ .ok c) := by
  constructor
  · decide
  · intro c h
    have : runAborted (swallowRun [tcDiagBad] true true st0) = none := by
      rw [h]
      rfl
    rw [show runAborted (swallowRun [tcDiagBad] true true st0) =
        some PyErr.osError by decide] at this
    exact Option.noConfusion this

/-- C7 (amended): whenever `Swallow.run` returns — its per-failure
diagnostic printing did not raise — every registered test lands in exactly
one of the `passed`/`not_run`/`failed` counters according to its run
outcome, and the three counters sum to the number of registered tests.
(When a reason-less failure's diagnostic raises, the loop aborts instead
and no counters are returned — see the counterexample.) -/
theorem swallow_run_counts_when_completes (ts : List TestCase)
    (no exp : Bool) (s : OutState) (p n f : Nat) (s1 : OutState)
    (h : swallowRun ts no exp s = .ok ((p, n, f), s1)) :
    p = ts.countP (fun t => (caseResult t no).state == some true) ∧
    n = ts.countP (fun t => (caseResult t no).state == none) ∧
    f = ts.countP (fun t => (caseResult t no).state == some false) ∧
    p + n + f = ts.length := by
  rcases hl : swallowRunLoop no exp ts s 0 0 0 with e | ⟨⟨p0, n0, f0⟩, s0x⟩
  · simp [swallowRun, hl] at h
  · simp only [swallowRun, hl] at h
    simp at h
    obtain ⟨⟨hp, hn, hf⟩, _⟩ := h
    obtain ⟨h1, h2, h3⟩ := swallowRunLoop_counts no exp ts s 0 0 0 p0 n0 f0 s0x hl
    have hsum := caseState_trichotomy_sum no ts
    refine ⟨by omega, by omega, by omega, by omega⟩

theorem printTo_append (s : OutState) (a b : List String) :
    printTo s (a ++ b) = printTo (printTo s a) b := by
  simp [printTo]

theorem runBodyTeardown_false_state (tc : TestCase) (s : OutState) :
    (runBodyTeardown tc false s).2.1 =
      printTo s (tc.body.behavior.output ++
        (tc.teardown.map (fun td => td.behavior.output)).getD []) := by
  rcases hv : bodyVerdict tc.expected tc.body.behavior.raises with ⟨st, rsn, exc⟩
  rcases htd : tc.teardown with _ | tf
  · simp [runBodyTeardown, withDevnull_false_eq, hv, htd]
  · rcases hr2 : tf.behavior.raises with _ | e2
    · simp [runBodyTeardown, withDevnull_false_eq, hv, htd, hr2, printTo_append]
    · simp only [runBodyTeardown, withDevnull_false_eq, hv, htd, hr2]
      split <;> simp [printTo_append]

theorem runCase_false_state (tc : TestCase) (s : OutState) :
    (runCase tc false s).2.1 = printTo s (caseOutputs tc) := by
  rcases hri : tc.run_if
  · simp [runCase, caseOutputs, hri, printTo]
  · rcases hsu : tc.setup with _ | sf
    · simp [runCase, caseOutputs, hri, hsu, runBodyTeardown_false_state]
    · rcases hsr : sf.behavior.raises with _ | se
      · rcases hbt : runBodyTeardown tc false (printTo s sf.behavior.output)
          with ⟨r2, s2, steps⟩
        have hs2 : s2 = printTo (printTo s sf.behavior.output)
            (tc.body.behavior.output ++
              (tc.teardown.map (fun td => td.behavior.output)).getD []) := by
          have h := runBodyTeardown_false_state tc (printTo s sf.behavior.output)
          rw [hbt] at h
          exact h
        simp [runCase, caseOutputs, hri, hsu, hsr, withDevnull_false_eq, hbt,
          hs2, printTo_append]
      · simp [runCase, caseOutputs, hri, hsu, hsr, withDevnull_false_eq]

/-- C4 counterexample: the claim says the suite traversal runs every case
"with output captured", but `__iter__` passes the literal `False` for
`no_output`.  A case whose body prints lands its line on the stream that
was bound to `sys.stdout` at entry (stream 0 here), not on a null sink,
and the traversal differs from the captured-variant the spec describes. -/
theorem swallow_iter_capture_counterexample :
    (swallowIter [tcPrinter] st0).2.log = [(st0.cur, "hello")] ∧
    (swallowIterSpecCaptured [tcPrinter] st0).2.log = [(1, "hello")] ∧
    swallowIter [tcPrinter] st0 ≠ swallowIterSpecCaptured [tcPrinter] st0 := by
  decide

/-- C4 (amended): iterating over the suite yields each case's
`(state, reason, exc)` outcome in registration order and prints nothing of
its own, but the cases run with output passed through (`no_output =
False`), not captured: `sys.stdout` stays bound to the entry stream and
every line the cases print is appended to it. -/
theorem swallow_iter_uncaptured_in_order (ts : List TestCase) :
    ∀ s : OutState,
      (swallowIter ts s).1 = ts.map runPure ∧
      (swallowIter ts s).2 = printTo s ((ts.map caseOutputs).flatten) := by
  induction ts with
  | nil =>
    intro s
    simp [swallowIter, printTo]
  | cons t ts ih =>
    intro s
    rcases hrc : runCase t false s with ⟨r, s1, tr⟩
    have hr : r = runPure t := by
      have h := runCase_fst t false s
      rw [hrc] at h
      exact h
    have hs1 : s1 = printTo s (caseOutputs t) := by
      have h := runCase_false_state t s
      rw [hrc] at h
      exact h
    subst hr
    subst hs1
    obtain ⟨ih1, ih2⟩ := ih (printTo s (caseOutputs t))
    rcases hit : swallowIter ts (printTo s (caseOutputs t)) with ⟨rs, s2⟩
    rw [hit] at ih1 ih2
    simp only [swallowIter, hrc, hit]
    constructor
    · simpa using ih1
    · simpa [printTo_append] using ih2

theorem validateCandidate_cases (c : Option Candidate) (h : specWF (candSpec c)) :
    (validateCandidate c = .ok () ∧ ¬ candBad c) ∨
    ((∃ m, validateCandidate c = .error m) ∧ candBad c) := by
  rcases c with _ | c
  · left
    refine ⟨rfl, ?_⟩
    rintro (⟨r, hr⟩ | ⟨p, d, hpd, _⟩)
    · exact Option.noConfusion hr
    · simp [candSpec] at hpd
  · rcases c with f | r
    · rcases hsp : f.argspec with _ | ⟨p, d⟩
      · left
        constructor
        · simp [validateCandidate, candSpec, hsp, takes_no_positional_arguments]
        · rintro (⟨r, hr⟩ | ⟨p2, d2, hpd, hlt⟩)
          · simp at hr
          · simp [candSpec, hsp] at hpd
      · by_cases hdp : d = p
        · left
          constructor
          · simp [validateCandidate, candSpec, hsp, takes_no_positional_arguments, hdp]
          · rintro (⟨r, hr⟩ | ⟨p2, d2, hpd, hlt⟩)
            · simp at hr
            · simp [candSpec, hsp] at hpd
              obtain ⟨hq1, hq2⟩ := hpd
              omega
        · right
          constructor
          · refine ⟨"isn't callable without positional arguments.", ?_⟩
            simp [validateCandidate, candSpec, hsp, takes_no_positional_arguments, hdp]
          · right
            refine ⟨p, d, by simp [candSpec, hsp], ?_⟩
            have := h p d (by simp [candSpec, hsp])
            omega
    · right
      exact ⟨⟨r ++ " isn't callable.", rfl⟩, Or.inl ⟨r, rfl⟩⟩

/-- C8: registration (`singletest`'s `decorating_function`) raises a
`ValueError` iff the body, setup, or teardown (when present) is a
non-callable or an inspectable callable requiring at least one positional
argument without a default; a callable whose signature cannot be
inspected (`takes_no_positional_arguments` returning `None`, the
validator's Unknown) is accepted.  The error occurs while the test value
is constructed, before any `run` exists. -/
theorem singletest_registration_error_iff (exp : Option ExcKind)
    (su td : Option Candidate) (ri : Bool) (fn : Candidate)
    (h1 : specWF (candSpec (some fn))) (h2 : specWF (candSpec su))
    (h3 : specWF (candSpec td)) :
    (∃ err, singletest exp su td ri fn = .error err) ↔
      candBad (some fn) ∨ candBad su ∨ candBad td := by
  rcases validateCandidate_cases (some fn) h1 with ⟨hok1, hnb1⟩ | ⟨⟨m1, he1⟩, hb1⟩
  · rcases validateCandidate_cases su h2 with ⟨hok2, hnb2⟩ | ⟨⟨m2, he2⟩, hb2⟩
    · rcases validateCandidate_cases td h3 with ⟨hok3, hnb3⟩ | ⟨⟨m3, he3⟩, hb3⟩
      · rcases fn with f | r
        · simp [singletest, hok1, hok2, hok3, hnb1, hnb2, hnb3]
        · exact absurd (Or.inl ⟨r, rfl⟩) hnb1
      · simp [singletest, hok1, hok2, he3, hb3]
    · simp [singletest, hok1, he2, hb2]
  · simp [singletest, he1, hb1]

/-- Witness for C8: a non-callable setup (the `42` of the repository's own
test `uncorrect_fn`) makes registration fail. -/
theorem singletest_registration_error_iff_witness :
    ((∃ err, singletest none (some (.notCallable "42")) none true
        (.callable fnOk) = .error err) ↔
      candBad (some (.callable fnOk)) ∨ candBad (some (.notCallable "42")) ∨
        candBad none) :=
  singletest_registration_error_iff none (some (.notCallable "42")) none true
    (.callable fnOk)
    (by
      intro p d hpd
      injection hpd with h1
      injection h1 with h2 h3
      omega)
    (by
      intro p d hpd
      exact Option.noConfusion hpd)
    (by
      intro p d hpd
      exact Option.noConfusion hpd)

/-- C10: handing a callable to `Swallow.__call__` in the run-condition
position gates nothing — the callable is taken to be the test body itself
and is registered with `run_if` at its default `True` and no expected
kind; only a non-callable value reaches the decorator path carrying
`run_if`. -/
theorem swallow_call_callable_is_body (sw : Swallow) (f : Fn) (t : TestCase)
    (h : singletest none sw.setup sw.teardown true (.callable f) = .ok t) :
    Swallow.call sw (.callableArg f) =
      .ok (.registered { sw with tests := sw.tests ++ [t] } t) ∧
    t.run_if = true ∧ t.body = f ∧ t.expected = none := by
  refine ⟨?_, ?_⟩
  · simp [Swallow.call, h]
  · rcases h1 : validateCandidate (some (.callable f)) with m | u
    · simp [singletest, h1] at h
    · rcases h2 : validateCandidate sw.setup with m | u2
      · simp [singletest, h1, h2] at h
      · rcases h3 : validateCandidate sw.teardown with m | u3
        · simp [singletest, h1, h2, h3] at h
        · simp only [singletest, h1, h2, h3] at h
          rw [Except.ok.injEq] at h
          subst h
          simp

/-- Witness for C10: registering a plain zero-argument callable through
`Swallow.__call__` on a fresh suite. -/
theorem swallow_call_callable_is_body_witness :
    Swallow.call (Swallow.init none none) (.callableArg fnOk) =
      .ok (.registered { Swallow.init none none with
        tests := (Swallow.init none none).tests ++
          [⟨none, none, none, true, fnOk⟩] } ⟨none, none, none, true, fnOk⟩) ∧
    (⟨none, none, none, true, fnOk⟩ : TestCase).run_if = true ∧
    (⟨none, none, none, true, fnOk⟩ : TestCase).body = fnOk ∧
    (⟨none, none, none, true, fnOk⟩ : TestCase).expected = none :=
  swallow_call_callable_is_body (Swallow.init none none) fnOk
    ⟨none, none, none, true, fnOk⟩ rfl

/-- C5 counterexample: on a traceback whose innermost frame has no
retrievable source, `print_exception` lets the expander's error escape,
while the degrade-to-no-expansion behaviour the spec words demand would
return cleanly with the very same trace. -/
theorem print_exception_degrade_counterexample :
    print_exception eiNoSource true =
      (formatTrace "AssertionError" "boom" [frameNoSource],
        .error .osError) ∧
    print_exception_specDegrade eiNoSource true =
      (formatTrace "AssertionError" "boom" [frameNoSource], .ok ()) ∧
    print_exception eiNoSource true ≠ print_exception_specDegrade eiNoSource true := by
  refine ⟨rfl, rfl, ?_⟩
  intro h
  rw [show print_exception eiNoSource true =
        (formatTrace "AssertionError" "boom" [frameNoSource],
          .error .osError) from rfl,
      show print_exception_specDegrade eiNoSource true =
        (formatTrace "AssertionError" "boom" [frameNoSource], .ok ()) from rfl] at h
  simp at h

/-- C5 (amended): when the failing frame's source cannot be retrieved, or
the source line's tokenization fails, `print_exception` has already
emitted the full stack trace to stderr, but the expander's exception then
propagates out of the call — there is no degradation to "no expansion
available", and the caller is exposed to the raise. -/
theorem print_exception_trace_then_raise (ei : ExcInfo) (fr : Frame)
    (hlast : (ei.frames.drop 1).getLast? = some fr)
    (hbad : fr.srcLine = none ∨ fr.toks = none) :
    ∃ err, print_exception ei true =
      (formatTrace ei.kindName ei.msg (ei.frames.drop 1), .error err) := by
  have hlast2 : ei.frames.tail.getLast? = some fr := by
    rw [← List.drop_one]
    exact hlast
  rcases hbad with hb | hb
  · refine ⟨.osError, ?_⟩
    simp [print_exception, get_meaningful_expression, hlast2, hb]
  · rcases hsl : fr.srcLine with _ | line
    · refine ⟨.osError, ?_⟩
      simp [print_exception, get_meaningful_expression, hlast2, hsl]
    · refine ⟨.tokenizeError, ?_⟩
      simp [print_exception, get_meaningful_expression, hlast2, hsl, hb]

/-- Witness for C5's amended statement at the concrete bad-source frame. -/
theorem print_exception_trace_then_raise_witness :
    ∃ err, print_exception eiNoSource true =
      (formatTrace eiNoSource.kindName eiNoSource.msg
        (eiNoSource.frames.drop 1), .error err) :=
  print_exception_trace_then_raise eiNoSource frameNoSource rfl (Or.inl rfl)

/-- Witness for C7's amended statement at a concrete completing suite: one
passing case, one reason-failure, and one reason-less failure whose
diagnostic printing succeeds. -/
theorem swallow_run_counts_when_completes_witness :
    1 = [tcExpectZde, tcExpectNoRaise, tcDiagOk].countP
        (fun t => (caseResult t true).state == some true) ∧
    0 = [tcExpectZde, tcExpectNoRaise, tcDiagOk].countP
        (fun t => (caseResult t true).state == none) ∧
    2 = [tcExpectZde, tcExpectNoRaise, tcDiagOk].countP
        (fun t => (caseResult t true).state == some false) ∧
    1 + 0 + 2 = ([tcExpectZde, tcExpectNoRaise, tcDiagOk] : List TestCase).length :=
  swallow_run_counts_when_completes [tcExpectZde, tcExpectNoRaise, tcDiagOk]
    true true st0 1 0 2
    ⟨0, 4,
     [(0, "Testing zde: "), (0, "PASS"), (0, "Testing ok: "), (0, "FAIL"),
      (0, "Testing zde: "), (0, "FAIL"), (0, ""),
      (0, "3 tests, 1 PASS, 0 NOT RUN, 2 FAIL")],
     ["No exception was raised (expected TypeError).",
      "Traceback (most recent call last):", "  1 // 0",
      "ZeroDivisionError: division by zero"]⟩
    rfl
